import Mathlib

/-!
Shallow embedding of the tic-tac-toe game component (src/tic-tac-toe.tsx)
and verification of its specification.

In the TypeScript source the `Player` type is `"X" | "O" | null`; a board is an array of
nine such cells.  We model a cell as `Option Mark` and a board as a
`List (Option Mark)` (the TS array), indexed with `List.getD` (an
out-of-range read yields `none`, matching a falsy `undefined` read).
The `winner` field of the component state is `Player | "tie"`, modelled by
the inductive `Winner` below.
-/

inductive Mark : Type
  | X : Mark
  | O : Mark
deriving DecidableEq

/-- The value of the `winner` state field / of `checkWinner`:
`null` (game in progress), a mark, or `"tie"`. -/
inductive Winner : Type
  | mark : Mark → Winner
  | tie : Winner
  | none : Winner
deriving DecidableEq

abbrev Board : Type := List (Option Mark)

/-- The eight winning triples, in source order: rows, columns, diagonals. -/
def WINNING_COMBINATIONS : List (Nat × Nat × Nat) :=
  [(0, 1, 2), (3, 4, 5), (6, 7, 8),
   (0, 3, 6), (1, 4, 7), (2, 5, 8),
   (0, 4, 8), (2, 4, 6)]

/-- One iteration of the `for` loop of `checkWinner`:
`board[a] && board[a] === board[b] && board[a] === board[c]`, returning the
common mark when the triple matches. -/
def lineWin (board : Board) (t : Nat × Nat × Nat) : Option Mark :=
  match board.getD t.1 none with
  | Option.none => Option.none
  | some m =>
    if board.getD t.2.1 none = some m ∧ board.getD t.2.2 none = some m then
      some m
    else
      Option.none

/-- Source function `checkWinner`: first matching winning combination wins; else `"tie"`
when every cell is non-null; else `null`. -/
def checkWinner (board : Board) : Winner :=
  match WINNING_COMBINATIONS.findSome? (lineWin board) with
  | some m => Winner.mark m
  | Option.none =>
    if board.all (fun cell => cell.isSome) then Winner.tie else Winner.none

/-- Spec-side predicate: some winning triple has all three cells equal to
`some m` ("fully occupied by `m`"). -/
def hasLine (board : Board) (m : Mark) : Prop :=
  ∃ t ∈ WINNING_COMBINATIONS,
    board.getD t.1 none = some m ∧ board.getD t.2.1 none = some m ∧
      board.getD t.2.2 none = some m

instance (board : Board) (m : Mark) : Decidable (hasLine board m) := by
  unfold hasLine; infer_instance

/-- Spec-side predicate: all cells of the board are non-empty. -/
def isFull (board : Board) : Prop := ∀ cell ∈ board, cell ≠ Option.none

instance (board : Board) : Decidable (isFull board) := by
  unfold isFull; infer_instance

inductive GameMode : Type
  | pvp : GameMode
  | ai : GameMode
deriving DecidableEq

structure Scores : Type where
  X : Nat
  O : Nat
  ties : Nat
deriving DecidableEq

/-- The component state (`GameState` in the source).  In the source
`currentPlayer` has the nullable `Player` type but is only ever assigned
`"X"` or `"O"`, so it is modelled as a `Mark`. -/
structure GameState : Type where
  board : Board
  currentPlayer : Mark
  winner : Winner
  gameMode : GameMode
  scores : Scores
deriving DecidableEq

/-- Source expression `currentPlayer === "X" ? "O" : "X"`. -/
def otherMark : Mark → Mark
  | Mark.X => Mark.O
  | Mark.O => Mark.X

/-- Models the computed-key score update
`{...prev.scores, [winner === "tie" ? "ties" : winner]: ... + 1}`;
only evaluated when `winner` is truthy. -/
def bumpScores (sc : Scores) : Winner → Scores
  | Winner.mark Mark.X => { sc with X := sc.X + 1 }
  | Winner.mark Mark.O => { sc with O := sc.O + 1 }
  | Winner.tie => { sc with ties := sc.ties + 1 }
  | Winner.none => sc

inductive MoveError : Type
  | CellOccupied : MoveError
  | GameOver : MoveError
deriving DecidableEq

/-- Source function `makeMove`.  The single guard
`if (gameState.board[index] || gameState.winner) return` rejects the move;
following the spec, the occupied-cell rejection is `CellOccupied` and the
terminal-state rejection is `GameOver` (cell test first, as in the source).
A successful move writes the mark of the current player, recomputes the winner,
and performs the merge-style state update of the source. -/
def makeMove (s : GameState) (index : Nat) : Except MoveError GameState :=
  if s.board.getD index Option.none ≠ Option.none then Except.error MoveError.CellOccupied
  else if s.winner ≠ Winner.none then Except.error MoveError.GameOver
  else
    let newBoard := s.board.set index (some s.currentPlayer)
    let winner := checkWinner newBoard
    let nextPlayer := otherMark s.currentPlayer
    Except.ok
      { s with
        board := newBoard
        currentPlayer := if winner ≠ Winner.none then s.currentPlayer else nextPlayer
        winner := winner
        scores :=
          if winner ≠ Winner.none then bumpScores s.scores winner else s.scores }

/-- The observable state transition of `makeMove`: a rejected call leaves
the component state unchanged. -/
def stepMove (s : GameState) (index : Nat) : GameState :=
  match makeMove s index with
  | Except.ok s' => s'
  | Except.error _ => s

/-- Source expression
`board.map((cell, index) => (cell === null ? index : null)).filter(...)`:
the indices of the empty cells, in ascending order. -/
def availableMoves (board : Board) : List Nat :=
  board.enum.filterMap fun p => if p.2 = Option.none then some p.1 else Option.none

/-- The body of the win/block loops of `getBestMove`: place `mk` on a copy
of the board at `m` and test whether `checkWinner` reports `mk`. -/
def winPred (board : Board) (mk : Mark) : Nat → Bool := fun m =>
  decide (checkWinner (board.set m (some mk)) = Winner.mark mk)

/-- Source expression `[0, 2, 6, 8].filter((i) => availableMoves.includes(i))`. -/
def cornersOf (board : Board) : List Nat :=
  [0, 2, 6, 8].filter fun i => decide (i ∈ availableMoves board)

/-- Source function `getBestMove`.  Each `Math.floor(Math.random() * n)` draw is modelled
as `r % n` for an arbitrary natural number `r` (`r1` for the corner pick,
`r2` for the final fallback), which ranges over exactly the indices
`0 .. n-1` the source can draw. -/
def getBestMove (board : Board) (r1 r2 : Nat) : Nat :=
  match (availableMoves board).find? (winPred board Mark.O) with
  | some m => m
  | Option.none =>
    match (availableMoves board).find? (winPred board Mark.X) with
    | some m => m
    | Option.none =>
      if 4 ∈ availableMoves board then 4
      else if (cornersOf board).length > 0 then
        (cornersOf board).getD (r1 % (cornersOf board).length) 0
      else
        (availableMoves board).getD (r2 % (availableMoves board).length) 0

/-- Source function `makeAIMove` up to its `setTimeout`: `none` when one of the early
returns fires, otherwise the cell index the scheduled callback will play. -/
def makeAIMove (s : GameState) (r1 r2 : Nat) : Option Nat :=
  if s.winner ≠ Winner.none ∨ s.currentPlayer = Mark.X then Option.none
  else if (availableMoves s.board).length = 0 then Option.none
  else some (getBestMove s.board r1 r2)

/-- The `useEffect` trigger: `makeAIMove` is invoked only in AI mode, on
the turn of O, with no winner. -/
def aiEffect (s : GameState) (r1 r2 : Nat) : Option Nat :=
  if s.gameMode = GameMode.ai ∧ s.currentPlayer = Mark.O ∧ s.winner = Winner.none then
    makeAIMove s r1 r2
  else
    Option.none

/-- The `setTimeout` callback scheduled by `makeAIMove`, firing when the
React state has meanwhile become `prev`.  The closure reads `gameState`
(the `captured` snapshot) for `getBestMove`, for the guard of `makeMove` and
for `newBoard`/`winner`/`nextPlayer`, while the functional
`setGameState((prev) => ...)` updater receives the state `prev` current at
fire time. -/
def staleFire (captured prev : GameState) (r1 r2 : Nat) : GameState :=
  let aiMove := getBestMove captured.board r1 r2
  if captured.board.getD aiMove Option.none ≠ Option.none ∨ captured.winner ≠ Winner.none then
    prev
  else
    let newBoard := captured.board.set aiMove (some captured.currentPlayer)
    let winner := checkWinner newBoard
    let nextPlayer := otherMark captured.currentPlayer
    { prev with
      board := newBoard
      currentPlayer := if winner ≠ Winner.none then prev.currentPlayer else nextPlayer
      winner := winner
      scores :=
        if winner ≠ Winner.none then bumpScores prev.scores winner else prev.scores }

/-- Source function `resetGame`: clears the board, turn back to X, no winner; mode and
scores are carried over by the spread. -/
def resetGame (s : GameState) : GameState :=
  { s with
    board := List.replicate 9 Option.none
    currentPlayer := Mark.X
    winner := Winner.none }

/-- Source function `resetScores`. -/
def resetScores (s : GameState) : GameState :=
  { s with scores := { X := 0, O := 0, ties := 0 } }

/-- Source function `switchGameMode`. -/
def switchGameMode (s : GameState) (mode : GameMode) : GameState :=
  { s with
    gameMode := mode
    board := List.replicate 9 Option.none
    currentPlayer := Mark.X
    winner := Winner.none }

/-- The initial `useState` value. -/
def initState : GameState :=
  { board := List.replicate 9 Option.none
    currentPlayer := Mark.X
    winner := Winner.none
    gameMode := GameMode.pvp
    scores := { X := 0, O := 0, ties := 0 } }

/-- States reachable from the initial state through the four state-changing
operations (the AI path applies its move through the same `makeMove`). -/
inductive Reachable : GameState → Prop
  | init : Reachable initState
  | move (s : GameState) (i : Nat) : Reachable s → Reachable (stepMove s i)
  | reset (s : GameState) : Reachable s → Reachable (resetGame s)
  | rscores (s : GameState) : Reachable s → Reachable (resetScores s)
  | smode (s : GameState) (m : GameMode) : Reachable s → Reachable (switchGameMode s m)

/-- A state one X move away from a top-row win: X and O have played twice. -/
def almostWonState : GameState :=
  { board := [some Mark.X, some Mark.X, Option.none, some Mark.O, some Mark.O,
      Option.none, Option.none, Option.none, Option.none]
    currentPlayer := Mark.X
    winner := Winner.none
    gameMode := GameMode.pvp
    scores := { X := 0, O := 0, ties := 0 } }

/-- A terminal state: X has completed the top row. -/
def sampleWonState : GameState :=
  { board := [some Mark.X, some Mark.X, some Mark.X, some Mark.O, some Mark.O,
      Option.none, Option.none, Option.none, Option.none]
    currentPlayer := Mark.X
    winner := Winner.mark Mark.X
    gameMode := GameMode.pvp
    scores := { X := 1, O := 0, ties := 0 } }

/-- The state captured by a scheduled AI callback: AI mode, X has played
cell 0, O (the AI) to move. -/
def staleCaptured : GameState :=
  { board := [some Mark.X, Option.none, Option.none, Option.none, Option.none,
      Option.none, Option.none, Option.none, Option.none]
    currentPlayer := Mark.O
    winner := Winner.none
    gameMode := GameMode.ai
    scores := { X := 0, O := 0, ties := 0 } }

/-! ### Lemmas about the evaluator -/

lemma lineWin_eq_some_iff {b : Board} {t : Nat × Nat × Nat} {m : Mark} :
    lineWin b t = some m ↔
      b.getD t.1 Option.none = some m ∧ b.getD t.2.1 Option.none = some m ∧
        b.getD t.2.2 Option.none = some m := by
  unfold lineWin
  cases ha : b.getD t.1 Option.none with
  | none => simp
  | some m' =>
    have hred :
        (match some m' with
          | Option.none => Option.none
          | some m =>
            if b.getD t.2.1 Option.none = some m ∧ b.getD t.2.2 Option.none = some m then
              some m
            else Option.none) =
          (if b.getD t.2.1 Option.none = some m' ∧ b.getD t.2.2 Option.none = some m' then
            some m'
          else Option.none) := rfl
    rw [hred]
    by_cases hbc :
        b.getD t.2.1 Option.none = some m' ∧ b.getD t.2.2 Option.none = some m'
    · rw [if_pos hbc]
      constructor
      · intro h
        obtain rfl : m' = m := by simpa using h
        exact ⟨rfl, hbc.1, hbc.2⟩
      · rintro ⟨h1, -, -⟩
        exact h1
    · rw [if_neg hbc]
      constructor
      · intro h; simp at h
      · rintro ⟨h1, h2, h3⟩
        obtain rfl : m' = m := by simpa using h1
        exact absurd ⟨h2, h3⟩ hbc

lemma exists_of_findSome?_eq_some {α β : Type} {f : α → Option β} {l : List α} {b : β}
    (h : l.findSome? f = some b) : ∃ a ∈ l, f a = some b := by
  rw [List.findSome?_eq_some_iff] at h
  obtain ⟨l₁, a, l₂, rfl, hfa, -⟩ := h
  exact ⟨a, by simp, hfa⟩

lemma hasLine_of_checkWinner_mark {b : Board} {m : Mark}
    (h : checkWinner b = Winner.mark m) : hasLine b m := by
  unfold checkWinner at h
  cases hfs : WINNING_COMBINATIONS.findSome? (lineWin b) with
  | none =>
    rw [hfs] at h
    by_cases hall : b.all (fun cell => cell.isSome)
    · rw [if_pos hall] at h; cases h
    · rw [if_neg hall] at h; cases h
  | some m' =>
    rw [hfs] at h
    obtain rfl : m' = m := by simpa using h
    obtain ⟨t, ht, hlw⟩ := exists_of_findSome?_eq_some hfs
    obtain ⟨h1, h2, h3⟩ := lineWin_eq_some_iff.mp hlw
    exact ⟨t, ht, h1, h2, h3⟩

lemma checkWinner_mark_of_hasLine {b : Board} {m : Mark}
    (hnd : ¬(hasLine b Mark.X ∧ hasLine b Mark.O)) (h : hasLine b m) :
    checkWinner b = Winner.mark m := by
  obtain ⟨t, ht, h1, h2, h3⟩ := h
  have hlw : lineWin b t = some m := lineWin_eq_some_iff.mpr ⟨h1, h2, h3⟩
  cases hfs : WINNING_COMBINATIONS.findSome? (lineWin b) with
  | none =>
    rw [List.findSome?_eq_none_iff] at hfs
    exact absurd (hfs t ht) (by simp [hlw])
  | some m' =>
    have hm' : checkWinner b = Winner.mark m' := by
      unfold checkWinner; rw [hfs]
    have hline' : hasLine b m' := hasLine_of_checkWinner_mark hm'
    cases m with
    | X =>
      cases m' with
      | X => exact hm'
      | O => exact absurd ⟨⟨t, ht, h1, h2, h3⟩, hline'⟩ hnd
    | O =>
      cases m' with
      | X => exact absurd ⟨hline', ⟨t, ht, h1, h2, h3⟩⟩ hnd
      | O => exact hm'

lemma checkWinner_of_no_line {b : Board} (h : ∀ m, ¬ hasLine b m) :
    checkWinner b = if b.all (fun cell => cell.isSome) then Winner.tie else Winner.none := by
  unfold checkWinner
  cases hfs : WINNING_COMBINATIONS.findSome? (lineWin b) with
  | none => rfl
  | some m' =>
    obtain ⟨t, ht, hlw⟩ := exists_of_findSome?_eq_some hfs
    obtain ⟨h1, h2, h3⟩ := lineWin_eq_some_iff.mp hlw
    exact absurd ⟨t, ht, h1, h2, h3⟩ (h m')

lemma all_isSome_iff_isFull {b : Board} :
    (b.all (fun cell => cell.isSome) = true) ↔ isFull b := by
  rw [List.all_eq_true]
  unfold isFull
  constructor
  · intro h cell hc
    exact Option.isSome_iff_ne_none.mp (h cell hc)
  · intro h cell hc
    exact Option.isSome_iff_ne_none.mpr (h cell hc)

/-! ### Lemmas about the heuristic -/

lemma filterMap_if_sublist_map_fst (l : List (Nat × Option Mark)) :
    List.Sublist
      (l.filterMap fun p => if p.2 = Option.none then some p.1 else Option.none)
      (l.map Prod.fst) := by
  induction l with
  | nil => simp
  | cons a t ih =>
    rw [List.filterMap_cons, List.map_cons]
    by_cases h : a.2 = Option.none
    · rw [if_pos h]
      exact ih.cons₂ a.1
    · rw [if_neg h]
      exact ih.cons a.1

lemma availableMoves_sublist_range (b : Board) :
    List.Sublist (availableMoves b) (List.range b.length) := by
  have h := filterMap_if_sublist_map_fst b.enum
  rw [List.enum_map_fst] at h
  exact h

lemma availableMoves_sorted (b : Board) : (availableMoves b).Sorted (· < ·) :=
  (List.pairwise_lt_range b.length).sublist (availableMoves_sublist_range b)

lemma mem_availableMoves {b : Board} {m : Nat} :
    m ∈ availableMoves b ↔ b[m]? = some Option.none := by
  unfold availableMoves
  rw [List.mem_filterMap]
  constructor
  · rintro ⟨⟨i, c⟩, hmem, hf⟩
    by_cases hc : c = Option.none
    · subst hc
      obtain rfl : i = m := by simpa using hf
      simpa using List.mem_enum_iff_getElem?.mp hmem
    · rw [if_neg hc] at hf
      cases hf
  · intro h
    exact ⟨(m, Option.none), List.mem_enum_iff_getElem?.mpr (by simpa using h), by simp⟩

lemma mem_availableMoves_getD {b : Board} {m : Nat} (h : m ∈ availableMoves b) :
    m < b.length ∧ b.getD m Option.none = Option.none := by
  have h' := mem_availableMoves.mp h
  refine ⟨(List.getElem?_eq_some.mp h').1, ?_⟩
  rw [List.getD_eq_getElem?_getD, h']
  rfl

lemma find?_min_of_sorted {l : List Nat} {p : Nat → Bool} {m : Nat}
    (hs : l.Sorted (· < ·)) (h : l.find? p = some m) :
    ∀ x ∈ l, p x = true → m ≤ x := by
  induction l with
  | nil => cases h
  | cons a t ih =>
    rw [List.find?_cons] at h
    cases hpa : p a with
    | true =>
      rw [hpa] at h
      obtain rfl : a = m := by simpa using h
      intro x hx hpx
      rcases List.mem_cons.mp hx with rfl | hx
      · exact Nat.le_refl _
      · exact Nat.le_of_lt (List.rel_of_sorted_cons hs x hx)
    | false =>
      rw [hpa] at h
      intro x hx hpx
      rcases List.mem_cons.mp hx with rfl | hx
      · rw [hpx] at hpa; cases hpa
      · exact ih (List.sorted_cons.mp hs).2 h x hx hpx

lemma getBestMove_of_win_found {board : Board} {m : Nat} (r1 r2 : Nat)
    (h : (availableMoves board).find? (winPred board Mark.O) = some m) :
    getBestMove board r1 r2 = m := by
  unfold getBestMove
  rw [h]

lemma getBestMove_of_block_found {board : Board} {m : Nat} (r1 r2 : Nat)
    (h1 : (availableMoves board).find? (winPred board Mark.O) = Option.none)
    (h2 : (availableMoves board).find? (winPred board Mark.X) = some m) :
    getBestMove board r1 r2 = m := by
  unfold getBestMove
  rw [h1, h2]

lemma getBestMove_of_center {board : Board} (r1 r2 : Nat)
    (h1 : (availableMoves board).find? (winPred board Mark.O) = Option.none)
    (h2 : (availableMoves board).find? (winPred board Mark.X) = Option.none)
    (h4 : 4 ∈ availableMoves board) :
    getBestMove board r1 r2 = 4 := by
  unfold getBestMove
  rw [h1, h2, if_pos h4]

lemma getBestMove_of_corner {board : Board} (r1 r2 : Nat)
    (h1 : (availableMoves board).find? (winPred board Mark.O) = Option.none)
    (h2 : (availableMoves board).find? (winPred board Mark.X) = Option.none)
    (h4 : 4 ∉ availableMoves board) (hc : (cornersOf board).length > 0) :
    getBestMove board r1 r2 = (cornersOf board).getD (r1 % (cornersOf board).length) 0 := by
  unfold getBestMove
  rw [h1, h2, if_neg h4, if_pos hc]

lemma getBestMove_of_fallback {board : Board} (r1 r2 : Nat)
    (h1 : (availableMoves board).find? (winPred board Mark.O) = Option.none)
    (h2 : (availableMoves board).find? (winPred board Mark.X) = Option.none)
    (h4 : 4 ∉ availableMoves board) (hc : ¬ (cornersOf board).length > 0) :
    getBestMove board r1 r2 =
      (availableMoves board).getD (r2 % (availableMoves board).length) 0 := by
  unfold getBestMove
  rw [h1, h2, if_neg h4, if_neg hc]

lemma getD_mod_mem {l : List Nat} (r : Nat) (h : l.length > 0) :
    l.getD (r % l.length) 0 ∈ l := by
  have hlt : r % l.length < l.length := Nat.mod_lt r h
  rw [List.getD_eq_getElem?_getD, List.getElem?_eq_getElem hlt]
  exact List.getElem_mem hlt

lemma cornersOf_subset {board : Board} {m : Nat} (h : m ∈ cornersOf board) :
    m ∈ availableMoves board := by
  unfold cornersOf at h
  have h' := (List.mem_filter.mp h).2
  simpa using h'

lemma getBestMove_mem_availableMoves {board : Board} (r1 r2 : Nat)
    (hne : availableMoves board ≠ []) :
    getBestMove board r1 r2 ∈ availableMoves board := by
  cases h1 : (availableMoves board).find? (winPred board Mark.O) with
  | some m =>
    rw [getBestMove_of_win_found r1 r2 h1]
    exact List.mem_of_find?_eq_some h1
  | none =>
    cases h2 : (availableMoves board).find? (winPred board Mark.X) with
    | some m =>
      rw [getBestMove_of_block_found r1 r2 h1 h2]
      exact List.mem_of_find?_eq_some h2
    | none =>
      by_cases h4 : 4 ∈ availableMoves board
      · rw [getBestMove_of_center r1 r2 h1 h2 h4]
        exact h4
      · by_cases hc : (cornersOf board).length > 0
        · rw [getBestMove_of_corner r1 r2 h1 h2 h4 hc]
          exact cornersOf_subset (getD_mod_mem r1 hc)
        · rw [getBestMove_of_fallback r1 r2 h1 h2 h4 hc]
          exact getD_mod_mem r2 (List.length_pos.mpr hne)

/-! ### Lemmas about `makeMove` -/

lemma makeMove_eq_error_cell {s : GameState} {i : Nat} :
    makeMove s i = Except.error MoveError.CellOccupied ↔
      s.board.getD i Option.none ≠ Option.none := by
  unfold makeMove
  by_cases h1 : s.board.getD i Option.none ≠ Option.none
  · rw [if_pos h1]
    exact iff_of_true rfl h1
  · rw [if_neg h1]
    by_cases h2 : s.winner ≠ Winner.none
    · rw [if_pos h2]
      exact iff_of_false (by simp) h1
    · rw [if_neg h2]
      exact iff_of_false (by simp) h1

lemma makeMove_eq_error_gameover {s : GameState} {i : Nat} :
    makeMove s i = Except.error MoveError.GameOver ↔
      (s.board.getD i Option.none = Option.none ∧ s.winner ≠ Winner.none) := by
  unfold makeMove
  by_cases h1 : s.board.getD i Option.none ≠ Option.none
  · rw [if_pos h1]
    exact iff_of_false (by simp) (fun hc => h1 hc.1)
  · rw [if_neg h1]
    by_cases h2 : s.winner ≠ Winner.none
    · rw [if_pos h2]
      exact iff_of_true rfl ⟨not_not.mp h1, h2⟩
    · rw [if_neg h2]
      exact iff_of_false (by simp) (fun hc => h2 hc.2)

lemma makeMove_isError_iff {s : GameState} {i : Nat} :
    (∃ e, makeMove s i = Except.error e) ↔
      (s.board.getD i Option.none ≠ Option.none ∨ s.winner ≠ Winner.none) := by
  constructor
  · rintro ⟨e, he⟩
    cases e with
    | CellOccupied => exact Or.inl (makeMove_eq_error_cell.mp he)
    | GameOver => exact Or.inr (makeMove_eq_error_gameover.mp he).2
  · intro h
    by_cases h1 : s.board.getD i Option.none ≠ Option.none
    · exact ⟨MoveError.CellOccupied, makeMove_eq_error_cell.mpr h1⟩
    · rcases h with h | h2
      · exact absurd h h1
      · exact ⟨MoveError.GameOver, makeMove_eq_error_gameover.mpr ⟨not_not.mp h1, h2⟩⟩

lemma stepMove_of_error {s : GameState} {i : Nat} {e : MoveError}
    (h : makeMove s i = Except.error e) : stepMove s i = s := by
  unfold stepMove
  rw [h]

lemma makeMove_ok_elim {s : GameState} {i : Nat} {s' : GameState}
    (h : makeMove s i = Except.ok s') :
    s.board.getD i Option.none = Option.none ∧ s.winner = Winner.none ∧
      s' = { s with
        board := s.board.set i (some s.currentPlayer)
        currentPlayer :=
          if checkWinner (s.board.set i (some s.currentPlayer)) ≠ Winner.none then
            s.currentPlayer
          else otherMark s.currentPlayer
        winner := checkWinner (s.board.set i (some s.currentPlayer))
        scores :=
          if checkWinner (s.board.set i (some s.currentPlayer)) ≠ Winner.none then
            bumpScores s.scores (checkWinner (s.board.set i (some s.currentPlayer)))
          else s.scores } := by
  unfold makeMove at h
  by_cases h1 : s.board.getD i Option.none ≠ Option.none
  · rw [if_pos h1] at h
    cases h
  · rw [if_neg h1] at h
    by_cases h2 : s.winner ≠ Winner.none
    · rw [if_pos h2] at h
      cases h
    · rw [if_neg h2] at h
      refine ⟨not_not.mp h1, not_not.mp h2, ?_⟩
      injection h with h
      exact h.symm

lemma find?_eq_none_of_all_false {l : List Nat} {p : Nat → Bool}
    (h : ∀ m ∈ l, p m = false) : l.find? p = Option.none :=
  List.find?_eq_none.mpr fun x hx => by simp [h x hx]

lemma getBestMove_win_exists {board : Board} (r1 r2 : Nat)
    (h : ∃ m ∈ availableMoves board, winPred board Mark.O m = true) :
    winPred board Mark.O (getBestMove board r1 r2) = true ∧
      getBestMove board r1 r2 ∈ availableMoves board ∧
      ∀ m ∈ availableMoves board, winPred board Mark.O m = true →
        getBestMove board r1 r2 ≤ m := by
  obtain ⟨m0, hm0, hp0⟩ := h
  cases hf : (availableMoves board).find? (winPred board Mark.O) with
  | none => exact absurd hp0 (by simpa using List.find?_eq_none.mp hf m0 hm0)
  | some g =>
    rw [getBestMove_of_win_found r1 r2 hf]
    exact ⟨List.find?_some hf, List.mem_of_find?_eq_some hf,
      find?_min_of_sorted (availableMoves_sorted board) hf⟩

lemma getBestMove_block_exists {board : Board} (r1 r2 : Nat)
    (hno : ∀ m ∈ availableMoves board, winPred board Mark.O m = false)
    (h : ∃ m ∈ availableMoves board, winPred board Mark.X m = true) :
    winPred board Mark.X (getBestMove board r1 r2) = true ∧
      getBestMove board r1 r2 ∈ availableMoves board ∧
      ∀ m ∈ availableMoves board, winPred board Mark.X m = true →
        getBestMove board r1 r2 ≤ m := by
  obtain ⟨m0, hm0, hp0⟩ := h
  have hfO := find?_eq_none_of_all_false hno
  cases hf : (availableMoves board).find? (winPred board Mark.X) with
  | none => exact absurd hp0 (by simpa using List.find?_eq_none.mp hf m0 hm0)
  | some g =>
    rw [getBestMove_of_block_found r1 r2 hfO hf]
    exact ⟨List.find?_some hf, List.mem_of_find?_eq_some hf,
      find?_min_of_sorted (availableMoves_sorted board) hf⟩

lemma makeMove_ok_fields {s : GameState} {i : Nat} {s' : GameState}
    (h : makeMove s i = Except.ok s') :
    s'.winner = checkWinner s'.board ∧
      s'.board = s.board.set i (some s.currentPlayer) ∧
      s'.currentPlayer =
        (if s'.winner ≠ Winner.none then s.currentPlayer else otherMark s.currentPlayer) ∧
      s'.scores =
        (if s'.winner ≠ Winner.none then bumpScores s.scores s'.winner else s.scores) ∧
      s'.gameMode = s.gameMode := by
  obtain ⟨-, -, rfl⟩ := makeMove_ok_elim h
  exact ⟨rfl, rfl, rfl, rfl, rfl⟩

/-! ### Claim theorems -/

/-- C1 (amended): for every 9-cell board on which X and O do not both own a
complete winning triple, `checkWinner` returns `Won(m)` exactly when some
winning triple among the 8 listed ones has all three cells non-empty and
equal to `m`; otherwise it returns `Tied` exactly when all 9 cells are
non-empty; otherwise it returns `InProgress` (`null`). -/
theorem checkWinner_outcome_spec (b : Board) (_hb : b.length = 9)
    (hnd : ¬(hasLine b Mark.X ∧ hasLine b Mark.O)) :
    (∀ m, checkWinner b = Winner.mark m ↔ hasLine b m) ∧
      ((∀ m, ¬ hasLine b m) → (checkWinner b = Winner.tie ↔ isFull b)) ∧
      ((∀ m, ¬ hasLine b m) → ¬ isFull b → checkWinner b = Winner.none) := by
  refine ⟨fun m => ⟨hasLine_of_checkWinner_mark, checkWinner_mark_of_hasLine hnd⟩, ?_, ?_⟩
  · intro hno
    rw [checkWinner_of_no_line hno]
    by_cases hf : b.all (fun cell => cell.isSome)
    · rw [if_pos hf]
      exact iff_of_true rfl (all_isSome_iff_isFull.mp hf)
    · rw [if_neg hf]
      exact iff_of_false (by simp) fun hful => hf (all_isSome_iff_isFull.mpr hful)
  · intro hno hnf
    rw [checkWinner_of_no_line hno,
      if_neg fun hf => hnf (all_isSome_iff_isFull.mp hf)]

/-- C1 witness: the amended claim evaluated on the empty board. -/
theorem checkWinner_outcome_spec_witness :
    (∀ m, checkWinner (List.replicate 9 Option.none) = Winner.mark m ↔
        hasLine (List.replicate 9 Option.none) m) ∧
      ((∀ m, ¬ hasLine (List.replicate 9 Option.none) m) →
        (checkWinner (List.replicate 9 Option.none) = Winner.tie ↔
          isFull (List.replicate 9 Option.none))) ∧
      ((∀ m, ¬ hasLine (List.replicate 9 Option.none) m) →
        ¬ isFull (List.replicate 9 Option.none) →
        checkWinner (List.replicate 9 Option.none) = Winner.none) :=
  checkWinner_outcome_spec (List.replicate 9 Option.none) (by decide) (by decide)

/-- C1 counterexample: on the (unreachable) board where X fills the top row
and O fills the middle row, the triple `{3,4,5}` is fully occupied by `O`,
yet `checkWinner` does not return `Won(O)` — it returns the first match,
`Won(X)` — so the claim's "exactly when", quantified over every 9-cell
board, fails. -/
theorem checkWinner_double_line_counterexample :
    ([some Mark.X, some Mark.X, some Mark.X, some Mark.O, some Mark.O, some Mark.O,
        Option.none, Option.none, Option.none] : Board).length = 9 ∧
      hasLine [some Mark.X, some Mark.X, some Mark.X, some Mark.O, some Mark.O,
        some Mark.O, Option.none, Option.none, Option.none] Mark.O ∧
      checkWinner [some Mark.X, some Mark.X, some Mark.X, some Mark.O, some Mark.O,
        some Mark.O, Option.none, Option.none, Option.none] ≠ Winner.mark Mark.O := by
  decide

/-- C6: the scheduled AI callback of the source is NOT dropped when the board is
reset during the delay: fired after `resetGame`, the callback computed from
the stale snapshot `staleCaptured` writes marks onto the reset (all-empty)
board — it places the O move on cell 4 and resurrects the stale X on cell 0. -/
theorem staleFire_overwrites_reset :
    (resetGame staleCaptured).board = List.replicate 9 Option.none ∧
      (staleFire staleCaptured (resetGame staleCaptured) 0 0).board.getD 4 Option.none =
        some Mark.O ∧
      (staleFire staleCaptured (resetGame staleCaptured) 0 0).board.getD 0 Option.none =
        some Mark.X ∧
      (staleFire staleCaptured (resetGame staleCaptured) 0 0).board ≠
        List.replicate 9 Option.none := by
  decide

/-- C7: in every state reachable from the initial state through `makeMove`,
`resetGame`, `resetScores` and `switchGameMode`, the stored `winner` field
equals `checkWinner` of the stored board. -/
theorem reachable_winner_invariant (s : GameState) (h : Reachable s) :
    s.winner = checkWinner s.board := by
  induction h with
  | init =>
    show Winner.none = checkWinner (List.replicate 9 Option.none)
    decide
  | move s i hr ih =>
    cases hm : makeMove s i with
    | error e =>
      rw [stepMove_of_error hm]
      exact ih
    | ok s' =>
      have hstep : stepMove s i = s' := by unfold stepMove; rw [hm]
      rw [hstep]
      exact (makeMove_ok_fields hm).1
  | reset s hr ih =>
    show Winner.none = checkWinner (List.replicate 9 Option.none)
    decide
  | rscores s hr ih => exact ih
  | smode s m hr ih =>
    show Winner.none = checkWinner (List.replicate 9 Option.none)
    decide

/-- C7 witness: the invariant holds at the initial state. -/
theorem reachable_winner_invariant_witness :
    initState.winner = checkWinner initState.board :=
  reachable_winner_invariant initState Reachable.init

/-- C9: `resetGame` clears the board, sets the turn to X and the outcome to
in-progress, and leaves the mode and the scoreboard untouched;
`switchGameMode` performs the same reset, sets the mode, and likewise
leaves the scoreboard untouched. -/
theorem reset_frame_spec (s : GameState) (m : GameMode) :
    (resetGame s).board = List.replicate 9 Option.none ∧
      (resetGame s).currentPlayer = Mark.X ∧
      (resetGame s).winner = Winner.none ∧
      (resetGame s).gameMode = s.gameMode ∧
      (resetGame s).scores = s.scores ∧
      (switchGameMode s m).board = List.replicate 9 Option.none ∧
      (switchGameMode s m).currentPlayer = Mark.X ∧
      (switchGameMode s m).winner = Winner.none ∧
      (switchGameMode s m).gameMode = m ∧
      (switchGameMode s m).scores = s.scores :=
  ⟨rfl, rfl, rfl, rfl, rfl, rfl, rfl, rfl, rfl, rfl⟩

/-- C3: for every index in 0..8, `makeMove` is rejected exactly when the
target cell is non-empty (`CellOccupied`, checked first) or the recorded
outcome is terminal (`GameOver`); a rejected call leaves the entire state
unchanged, so a second call on the same occupied cell fails again, and once
the outcome is terminal every call fails. -/
theorem makeMove_rejection_spec (s : GameState) (i : Nat) (_hi : i < 9) :
    ((∃ e, makeMove s i = Except.error e) ↔
        (s.board.getD i Option.none ≠ Option.none ∨ s.winner ≠ Winner.none)) ∧
      (makeMove s i = Except.error MoveError.CellOccupied ↔
        s.board.getD i Option.none ≠ Option.none) ∧
      (makeMove s i = Except.error MoveError.GameOver ↔
        (s.board.getD i Option.none = Option.none ∧ s.winner ≠ Winner.none)) ∧
      (∀ e, makeMove s i = Except.error e → stepMove s i = s) ∧
      (makeMove s i = Except.error MoveError.CellOccupied →
        makeMove (stepMove s i) i = Except.error MoveError.CellOccupied) ∧
      (s.winner ≠ Winner.none → ∃ e, makeMove s i = Except.error e) := by
  refine ⟨makeMove_isError_iff, makeMove_eq_error_cell, makeMove_eq_error_gameover,
    fun e he => stepMove_of_error he, ?_, ?_⟩
  · intro h
    rw [stepMove_of_error h]
    exact h
  · intro hw
    exact makeMove_isError_iff.mpr (Or.inr hw)

/-- C3 witness: on a terminal state with X filling the top row, the move on
occupied cell 0 is rejected with `CellOccupied`. -/
theorem makeMove_rejection_spec_witness :
    makeMove sampleWonState 0 = Except.error MoveError.CellOccupied ↔
      sampleWonState.board.getD 0 Option.none ≠ Option.none :=
  (makeMove_rejection_spec sampleWonState 0 (by decide)).2.1

/-- C4: a successful `makeMove` that ends the game increments exactly one
scoreboard counter by exactly 1 — the counter of the winner on a win, `ties` on a tie —
leaving the other two counters unchanged; a successful in-progress move and
any rejected move change no counter. -/
theorem makeMove_scoreboard_spec (s : GameState) (i : Nat) :
    (∀ s', makeMove s i = Except.ok s' →
        (s'.winner = Winner.mark Mark.X →
          s'.scores.X = s.scores.X + 1 ∧ s'.scores.O = s.scores.O ∧
            s'.scores.ties = s.scores.ties) ∧
        (s'.winner = Winner.mark Mark.O →
          s'.scores.O = s.scores.O + 1 ∧ s'.scores.X = s.scores.X ∧
            s'.scores.ties = s.scores.ties) ∧
        (s'.winner = Winner.tie →
          s'.scores.ties = s.scores.ties + 1 ∧ s'.scores.X = s.scores.X ∧
            s'.scores.O = s.scores.O) ∧
        (s'.winner = Winner.none → s'.scores = s.scores)) ∧
      (∀ e, makeMove s i = Except.error e → (stepMove s i).scores = s.scores) := by
  constructor
  · intro s' h
    have hsc := (makeMove_ok_fields h).2.2.2.1
    refine ⟨?_, ?_, ?_, ?_⟩ <;> intro hw <;> rw [hsc, hw] <;> simp [bumpScores]
  · intro e he
    rw [stepMove_of_error he]

/-- C4 witness: completing the top row from `almostWonState` increments
the X counter by exactly one. -/
theorem makeMove_scoreboard_spec_witness :
    (stepMove almostWonState 2).scores.X = almostWonState.scores.X + 1 :=
  (((makeMove_scoreboard_spec almostWonState 2).1 (stepMove almostWonState 2)
    rfl).1 (by decide)).1

/-- C5: after a successful `makeMove`, an in-progress outcome flips the
turn to the other mark and a terminal outcome keeps the mark of the mover, so
from X the next (non-terminal) turn is O and from O it is X. -/
theorem makeMove_turn_spec (s : GameState) (i : Nat) (s' : GameState)
    (h : makeMove s i = Except.ok s') :
    (s'.winner = Winner.none → s'.currentPlayer = otherMark s.currentPlayer) ∧
      (s'.winner ≠ Winner.none → s'.currentPlayer = s.currentPlayer) ∧
      (s.currentPlayer = Mark.X → s'.winner = Winner.none → s'.currentPlayer = Mark.O) ∧
      (s.currentPlayer = Mark.O → s'.winner = Winner.none → s'.currentPlayer = Mark.X) := by
  have hcp := (makeMove_ok_fields h).2.2.1
  refine ⟨?_, ?_, ?_, ?_⟩
  · intro hw
    rw [hcp, if_neg (by simp [hw])]
  · intro hw
    rw [hcp, if_pos hw]
  · intro hx hw
    rw [hcp, if_neg (by simp [hw]), hx]
    rfl
  · intro ho hw
    rw [hcp, if_neg (by simp [hw]), ho]
    rfl

/-- C5 witness: the opening X move on the empty board hands the turn to O. -/
theorem makeMove_turn_spec_witness :
    (stepMove initState 0).currentPlayer = otherMark initState.currentPlayer :=
  (makeMove_turn_spec initState 0 (stepMove initState 0) rfl).1 (by decide)

/-- C2: `getBestMove` follows the fixed priority order — immediate win
(first hit scanning legal cells in ascending order), else block (same
rule), else center 4, else an empty corner, else a remaining legal cell,
the last two for every outcome of the random draws — and on
`[O,O,_,X,X,_,_,_,_]` it plays 2 (win-now beats block) while on
`[X,X,_,O,_,_,_,_,_]` it plays 2 (block beats the open center). -/
theorem getBestMove_priority_spec :
    (∀ (board : Board) (r1 r2 : Nat),
      ((∃ m ∈ availableMoves board, winPred board Mark.O m = true) →
        winPred board Mark.O (getBestMove board r1 r2) = true ∧
          getBestMove board r1 r2 ∈ availableMoves board ∧
          ∀ m ∈ availableMoves board, winPred board Mark.O m = true →
            getBestMove board r1 r2 ≤ m) ∧
      ((∀ m ∈ availableMoves board, winPred board Mark.O m = false) →
        (∃ m ∈ availableMoves board, winPred board Mark.X m = true) →
        winPred board Mark.X (getBestMove board r1 r2) = true ∧
          getBestMove board r1 r2 ∈ availableMoves board ∧
          ∀ m ∈ availableMoves board, winPred board Mark.X m = true →
            getBestMove board r1 r2 ≤ m) ∧
      ((∀ m ∈ availableMoves board, winPred board Mark.O m = false) →
        (∀ m ∈ availableMoves board, winPred board Mark.X m = false) →
        4 ∈ availableMoves board → getBestMove board r1 r2 = 4) ∧
      ((∀ m ∈ availableMoves board, winPred board Mark.O m = false) →
        (∀ m ∈ availableMoves board, winPred board Mark.X m = false) →
        4 ∉ availableMoves board → cornersOf board ≠ [] →
        getBestMove board r1 r2 ∈ cornersOf board) ∧
      ((∀ m ∈ availableMoves board, winPred board Mark.O m = false) →
        (∀ m ∈ availableMoves board, winPred board Mark.X m = false) →
        4 ∉ availableMoves board → cornersOf board = [] →
        availableMoves board ≠ [] →
        getBestMove board r1 r2 ∈ availableMoves board)) ∧
    (∀ r1 r2 : Nat,
      getBestMove [some Mark.O, some Mark.O, Option.none, some Mark.X, some Mark.X,
        Option.none, Option.none, Option.none, Option.none] r1 r2 = 2) ∧
    (∀ r1 r2 : Nat,
      getBestMove [some Mark.X, some Mark.X, Option.none, some Mark.O, Option.none,
        Option.none, Option.none, Option.none, Option.none] r1 r2 = 2) := by
  refine ⟨fun board r1 r2 =>
    ⟨getBestMove_win_exists r1 r2, getBestMove_block_exists r1 r2, ?_, ?_, ?_⟩, ?_, ?_⟩
  · intro hO hX h4
    exact getBestMove_of_center r1 r2 (find?_eq_none_of_all_false hO)
      (find?_eq_none_of_all_false hX) h4
  · intro hO hX h4 hc
    rw [getBestMove_of_corner r1 r2 (find?_eq_none_of_all_false hO)
      (find?_eq_none_of_all_false hX) h4 (List.length_pos.mpr hc)]
    exact getD_mod_mem r1 (List.length_pos.mpr hc)
  · intro hO hX h4 hc hne
    rw [getBestMove_of_fallback r1 r2 (find?_eq_none_of_all_false hO)
      (find?_eq_none_of_all_false hX) h4 (by simp [hc])]
    exact getD_mod_mem r2 (List.length_pos.mpr hne)
  · intro r1 r2
    exact getBestMove_of_win_found r1 r2 (by decide)
  · intro r1 r2
    exact getBestMove_of_block_found r1 r2 (by decide) (by decide)

/-- C2 witness: the win branch fires on `[O,O,_,X,X,_,_,_,_]` and the block
branch fires on `[X,X,_,O,_,_,_,_,_]`. -/
theorem getBestMove_priority_spec_witness :
    winPred [some Mark.O, some Mark.O, Option.none, some Mark.X, some Mark.X,
        Option.none, Option.none, Option.none, Option.none] Mark.O
      (getBestMove [some Mark.O, some Mark.O, Option.none, some Mark.X, some Mark.X,
        Option.none, Option.none, Option.none, Option.none] 0 0) = true ∧
    winPred [some Mark.X, some Mark.X, Option.none, some Mark.O, Option.none,
        Option.none, Option.none, Option.none, Option.none] Mark.X
      (getBestMove [some Mark.X, some Mark.X, Option.none, some Mark.O, Option.none,
        Option.none, Option.none, Option.none, Option.none] 0 0) = true :=
  ⟨((getBestMove_priority_spec.1 _ 0 0).1 ⟨2, by decide, by decide⟩).1,
    ((getBestMove_priority_spec.1 _ 0 0).2.1 (by decide) ⟨2, by decide, by decide⟩).1⟩

/-- C8: whenever the 9-cell board has at least one empty cell and no
winner, `getBestMove` returns the index of an empty cell in 0..8, for every
outcome of its random draws. -/
theorem getBestMove_safety_spec (b : Board) (hb : b.length = 9)
    (hempty : ∃ c ∈ b, c = Option.none) (_hw : checkWinner b = Winner.none)
    (r1 r2 : Nat) :
    getBestMove b r1 r2 < 9 ∧
      b.getD (getBestMove b r1 r2) Option.none = Option.none := by
  have hne : availableMoves b ≠ [] := by
    obtain ⟨c, hc, rfl⟩ := hempty
    obtain ⟨n, hn⟩ := List.mem_iff_get.mp hc
    have hmem : (n : Nat) ∈ availableMoves b := by
      rw [mem_availableMoves, List.getElem?_eq_getElem n.isLt]
      exact congrArg some (by rw [← List.get_eq_getElem]; exact hn)
    intro hnil
    rw [hnil] at hmem
    exact List.not_mem_nil _ hmem
  have hmem := getBestMove_mem_availableMoves r1 r2 hne
  have hgd := mem_availableMoves_getD hmem
  exact ⟨hb ▸ hgd.1, hgd.2⟩

/-- C8 witness: on the empty board, the chosen move is an in-range empty
cell. -/
theorem getBestMove_safety_spec_witness :
    getBestMove (List.replicate 9 (Option.none : Option Mark)) 0 0 < 9 ∧
      (List.replicate 9 (Option.none : Option Mark)).getD
        (getBestMove (List.replicate 9 (Option.none : Option Mark)) 0 0)
        Option.none = Option.none :=
  getBestMove_safety_spec (List.replicate 9 (Option.none : Option Mark)) (by decide)
    (by decide) (by decide) 0 0

/-- C10: the automated opponent only ever plays O — `makeAIMove` schedules
nothing exactly when a winner exists, the current player is X, or no empty
cell remains; a scheduled move implies it is the turn of O with the game in
progress; the `useEffect` triggers only in AI mode on the O turn in progress;
the win simulation places O and the block simulation places X. -/
theorem aiMove_guard_spec (s : GameState) (r1 r2 : Nat) :
    (makeAIMove s r1 r2 = Option.none ↔
      (s.winner ≠ Winner.none ∨ s.currentPlayer = Mark.X ∨
        availableMoves s.board = [])) ∧
    (∀ mv, makeAIMove s r1 r2 = some mv →
      s.currentPlayer = Mark.O ∧ s.winner = Winner.none ∧
        mv = getBestMove s.board r1 r2) ∧
    (∀ mv, aiEffect s r1 r2 = some mv →
      s.gameMode = GameMode.ai ∧ s.currentPlayer = Mark.O ∧
        s.winner = Winner.none ∧ makeAIMove s r1 r2 = some mv) ∧
    ((∃ m ∈ availableMoves s.board, winPred s.board Mark.O m = true) →
      winPred s.board Mark.O (getBestMove s.board r1 r2) = true) ∧
    ((∀ m ∈ availableMoves s.board, winPred s.board Mark.O m = false) →
      (∃ m ∈ availableMoves s.board, winPred s.board Mark.X m = true) →
      winPred s.board Mark.X (getBestMove s.board r1 r2) = true) := by
  refine ⟨?_, ?_, ?_, fun h => (getBestMove_win_exists r1 r2 h).1,
    fun hno h => (getBestMove_block_exists r1 r2 hno h).1⟩
  · unfold makeAIMove
    by_cases hg : s.winner ≠ Winner.none ∨ s.currentPlayer = Mark.X
    · rw [if_pos hg]
      exact iff_of_true rfl (hg.elim Or.inl fun h => Or.inr (Or.inl h))
    · rw [if_neg hg]
      push_neg at hg
      by_cases hl : (availableMoves s.board).length = 0
      · rw [if_pos hl]
        exact iff_of_true rfl (Or.inr (Or.inr (List.length_eq_zero.mp hl)))
      · rw [if_neg hl]
        refine iff_of_false (by simp) ?_
        rintro (h | h | h)
        · exact h hg.1
        · exact hg.2 h
        · exact hl (by rw [h]; rfl)
  · intro mv h
    unfold makeAIMove at h
    by_cases hg : s.winner ≠ Winner.none ∨ s.currentPlayer = Mark.X
    · rw [if_pos hg] at h
      cases h
    · rw [if_neg hg] at h
      push_neg at hg
      by_cases hl : (availableMoves s.board).length = 0
      · rw [if_pos hl] at h
        cases h
      · rw [if_neg hl] at h
        obtain rfl : mv = getBestMove s.board r1 r2 := by
          injection h with h
          exact h.symm
        refine ⟨?_, hg.1, rfl⟩
        cases hcp : s.currentPlayer with
        | X => exact absurd hcp hg.2
        | O => rfl
  · intro mv h
    unfold aiEffect at h
    by_cases hc : s.gameMode = GameMode.ai ∧ s.currentPlayer = Mark.O ∧
      s.winner = Winner.none
    · rw [if_pos hc] at h
      exact ⟨hc.1, hc.2.1, hc.2.2, h⟩
    · rw [if_neg hc] at h
      cases h

/-- C10 witness: in the captured AI-mode state, the scheduled move 4 comes
with O to move and the game in progress. -/
theorem aiMove_guard_spec_witness :
    staleCaptured.currentPlayer = Mark.O ∧ staleCaptured.winner = Winner.none ∧
      4 = getBestMove staleCaptured.board 0 0 :=
  (aiMove_guard_spec staleCaptured 0 0).2.1 4 (by decide)
